import Mathlib

/-!
# Verification of the Adaptive Crop Trajectory Engine

A shallow embedding of the core cropping engine of the Vid_app repository:

* `backend/services/ai_cropping.py` — scene classification, subject detection
  dispatch, crop-trajectory generation and keyframe interpolation;
* `backend/utils/stabilizer.py` — the heavy-tripod stabilizer state machine.

Conventions of the embedding:

* Python `int(x)` (truncation toward zero) is `pyInt`; Python `//` on
  integers (floor division) is `Int.fdiv`; Python floats are modelled as
  exact rationals (for the integer-valued cropping pipeline) or as real
  numbers (for the stabilizer, whose arithmetic involves square roots).
* Frame pixel data is abstract: a detection backend is modelled by the
  list of regions it reports for the frame under consideration, a frame
  source by a predicate telling whether the read at a sampled index
  succeeds, and the detection-plus-stabilization front end of the track
  crop by the smoothed centre it yields at a keyframe.
-/

namespace VidApp

/-- Python `int(...)` applied to a real-valued quantity: truncation toward
zero (floor for nonnegative arguments, ceiling for negative ones). -/
def pyInt (q : ℚ) : ℤ := if 0 ≤ q then ⌊q⌋ else ⌈q⌉

/-- `CroppingMode` from `ai_cropping.py`: the two framing strategies. -/
inductive CroppingMode where
  | track
  | general
deriving DecidableEq, Repr

/-- `FaceDetection` from `ai_cropping.py`: a detected region in frame
pixel coordinates with a confidence score. -/
structure FaceDetection where
  x : ℤ
  y : ℤ
  width : ℤ
  height : ℤ
  confidence : ℚ
  is_speaking : Bool := false
deriving DecidableEq, Repr

/-- `CropFrame` from `ai_cropping.py`: a single output frame's crop
parameters. -/
structure CropFrame where
  center_x : ℤ
  center_y : ℤ
  crop_width : ℤ
  crop_height : ℤ
  mode : CroppingMode
deriving DecidableEq, Repr

instance : Inhabited CropFrame := ⟨⟨0, 0, 0, 0, CroppingMode.track⟩⟩

/-- A MediaPipe relative bounding box (`location_data.relative_bounding_box`). -/
structure RelBBox where
  xmin : ℚ
  ymin : ℚ
  width : ℚ
  height : ℚ
deriving DecidableEq, Repr

/-- One MediaPipe detection: relative box plus score. -/
structure MPDetection where
  bbox : RelBBox
  score : ℚ
deriving DecidableEq, Repr

/-- One YOLOv8 person box in absolute pixel coordinates. -/
structure YoloBox where
  x1 : ℤ
  y1 : ℤ
  x2 : ℤ
  y2 : ℤ
  conf : ℚ
deriving DecidableEq, Repr

/-- `AICroppingService._detect_faces`.  A backend is modelled by an
`Option`: `none` means the backend is unavailable (`self.face_detector`
resp. `self.yolo_model` is `None`), `some l` means it is available and
reports the detections `l` on the frame at hand.  The MediaPipe branch
scales relative boxes by the frame dimensions with Python `int`
truncation; the YOLO branch runs only when the MediaPipe pass produced no
faces, keeps boxes with confidence above 0.5, and estimates the face as
the upper quarter of the person box (`(y2 - y1) // 4`). -/
def detect_faces (face_detector : Option (List MPDetection))
    (yolo_model : Option (List YoloBox)) (width height : ℤ) :
    List FaceDetection :=
  let faces : List FaceDetection :=
    match face_detector with
    | none => []
    | some dets =>
        dets.map fun d =>
          { x := pyInt (d.bbox.xmin * width)
            y := pyInt (d.bbox.ymin * height)
            width := pyInt (d.bbox.width * width)
            height := pyInt (d.bbox.height * height)
            confidence := d.score }
  if faces = [] then
    match yolo_model with
    | none => faces
    | some boxes =>
        faces ++ (boxes.filter fun b => 1/2 < b.conf).map fun b =>
          { x := b.x1
            y := b.y1
            width := b.x2 - b.x1
            height := (b.y2 - b.y1).fdiv 4
            confidence := b.conf }
  else faces

/-- The detection input that `AICroppingService._track_mode_crop` feeds to
the stabilizer: centre of the largest-area face, or the frame centre with
confidence 0.3 when no face was detected. -/
def track_detect_input (faces : List FaceDetection) (width height : ℤ) :
    ℤ × ℤ × ℚ :=
  match faces with
  | [] => (width.fdiv 2, height.fdiv 2, 3/10)
  | f :: rest =>
      let best := (f :: rest).foldl
        (fun best g => if best.width * best.height < g.width * g.height then g else best) f
      (best.x + best.width.fdiv 2, best.y + best.height.fdiv 2, best.confidence)

/-- `AICroppingService._find_primary_face`: highest `area × confidence`
score wins; Python's stable descending sort keeps the earliest detection
among ties, which the fold with a strict comparison reproduces. -/
def find_primary_face : List FaceDetection → Option FaceDetection
  | [] => none
  | f :: rest =>
      some ((f :: rest).foldl
        (fun best g =>
          if (best.width * best.height : ℚ) * best.confidence <
              (g.width * g.height : ℚ) * g.confidence then g else best) f)

/-- `SceneAnalysis` from `ai_cropping.py` (the `reason` string, pure
logging output, is not modelled). -/
structure SceneAnalysis where
  mode : CroppingMode
  face_count : ℤ
  primary_face : Option FaceDetection
  all_faces : List FaceDetection
  movement_score : ℚ
deriving DecidableEq, Repr

/-- Per-sample detection counts: one entry per successfully decoded
sample frame (`None` samples — failed reads — are skipped). -/
def face_counts (samples : List (Option (List FaceDetection))) : List ℕ :=
  (samples.filterMap id).map List.length

/-- `np.mean(face_counts) if face_counts else 0`. -/
def avg_faces (samples : List (Option (List FaceDetection))) : ℚ :=
  let counts := face_counts samples
  if counts = [] then 0 else ((counts.sum : ℚ) / counts.length)

/-- `max(face_counts) if face_counts else 0`. -/
def max_faces (samples : List (Option (List FaceDetection))) : ℕ :=
  (face_counts samples).foldr max 0

/-- `AICroppingService._do_scene_analysis`.  Each sample is `none` when
the seek-and-read at that sample point failed (skipped) and `some faces`
when the frame decoded and `_detect_faces` returned `faces`.  Movement
scores (mean absolute grayscale difference of consecutive decoded frames,
scaled into 0–100) depend on pixel content and are supplied abstractly;
with fewer than two decoded frames this list is empty. -/
def do_scene_analysis (samples : List (Option (List FaceDetection)))
    (movement_scores : List ℚ) : SceneAnalysis :=
  let all_detections := (samples.filterMap id).flatten
  let avg := avg_faces samples
  let mx := max_faces samples
  let avg_movement : ℚ :=
    if movement_scores = [] then 0
    else movement_scores.sum / movement_scores.length
  let mode :=
    if avg ≤ 3/2 ∧ mx ≤ 2 then CroppingMode.track else CroppingMode.general
  { mode := mode
    face_count := pyInt avg
    primary_face :=
      if all_detections = [] then none else find_primary_face all_detections
    all_faces :=
      if all_detections = [] then []
      else all_detections.drop (all_detections.length - 10)
    movement_score := avg_movement }

/-- The keyframe sampling skip factor of
`AICroppingService._generate_trajectory`:
`skip_factor = max(1, int(fps / 10))`. -/
def skip_factor (fps : ℚ) : ℕ := max 1 (pyInt (fps / 10)).toNat

/-- The skip factor as the claim words it, with rounding to nearest in
place of the source's truncation (`max(1, round(fps / 10))`).  Stated only
to be compared against `skip_factor`. -/
def claimed_skip_factor (fps : ℚ) : ℕ := max 1 (round (fps / 10)).toNat

/-- `total_frames = int(end_time * fps) - int(start_time * fps)` in
`AICroppingService._generate_trajectory`; a non-positive difference makes
every loop of the generator empty, which `Int.toNat` collapses to `0`. -/
def total_output_frames (start_time end_time fps : ℚ) : ℕ :=
  (pyInt (end_time * fps) - pyInt (start_time * fps)).toNat

/-- `range(0, total_frames, skip_factor)`: the output-frame indices at
which keyframes are sampled. -/
def sample_indices (total skip : ℕ) : List ℕ :=
  (List.range ((total + skip - 1) / skip)).map (· * skip)

/-- `AICroppingService._track_mode_crop`, dimension and packaging part.
The detection-and-stabilization front end (which produces the smoothed
centre `(smooth_x, smooth_y)`) is modelled separately by
`track_detect_input` and the stabilizer development below; this function
receives its output.  A fixed 9:16 box is derived from the frame height
and re-derived from the width when it would be too wide. -/
def track_mode_crop (smooth_x smooth_y : ℚ) (width height : ℤ) : CropFrame :=
  let crop_height := height
  let crop_width := pyInt ((crop_height : ℚ) * 9 / 16)
  if width < crop_width then
    { center_x := pyInt smooth_x
      center_y := pyInt smooth_y
      crop_width := width
      crop_height := pyInt ((width : ℚ) * 16 / 9)
      mode := CroppingMode.track }
  else
    { center_x := pyInt smooth_x
      center_y := pyInt smooth_y
      crop_width := crop_width
      crop_height := crop_height
      mode := CroppingMode.track }

/-- `AICroppingService._general_mode_crop`: centred full-frame crop. -/
def general_mode_crop (width height : ℤ) : CropFrame :=
  { center_x := width.fdiv 2
    center_y := height.fdiv 2
    crop_width := width
    crop_height := height
    mode := CroppingMode.general }

/-- The bracketing-keyframe search inside
`AICroppingService._interpolate_crop_frames`:

```
for i, ki in enumerate(indices):
    if ki <= frame_idx: prev_key_idx = i
    if ki >= frame_idx: next_key_idx = i; break
else:
    next_key_idx = len(keyframes) - 1
```

`i` is the position of the list head, `prev` the accumulator, `fallback`
the for-else value `len(keyframes) - 1`. -/
def bracket_aux (f : ℤ) (fallback : ℕ) : List ℤ → ℕ → ℕ → ℕ × ℕ
  | [], _, prev => (prev, fallback)
  | k :: rest, i, prev =>
      let prev1 := if k ≤ f then i else prev
      if f ≤ k then (prev1, i) else bracket_aux f fallback rest (i + 1) prev1

/-- The `(prev_key_idx, next_key_idx)` pair computed for output frame
index `f`. -/
def find_bracket (indices : List ℤ) (f : ℤ) (num_keyframes : ℕ) : ℕ × ℕ :=
  bracket_aux f (num_keyframes - 1) indices 0 0

/-- The body of the interpolation loop: the `CropFrame` emitted for one
output frame index.  Out-of-range list accesses (impossible under the
generator's invariants) yield the default crop frame. -/
def interp_one (keyframes : List CropFrame) (indices : List ℤ)
    (mode : CroppingMode) (f : ℤ) : CropFrame :=
  let pn := find_bracket indices f keyframes.length
  let p := pn.1
  let n := pn.2
  if p = n ∨ indices.getD n 0 = indices.getD p 0 then
    keyframes.getD p default
  else
    let prev_crop := keyframes.getD p default
    let next_crop := keyframes.getD n default
    let t : ℚ := ((f : ℚ) - (indices.getD p 0 : ℚ)) /
      ((indices.getD n 0 : ℚ) - (indices.getD p 0 : ℚ))
    { center_x := pyInt ((prev_crop.center_x : ℚ) +
        t * ((next_crop.center_x : ℚ) - (prev_crop.center_x : ℚ)))
      center_y := pyInt ((prev_crop.center_y : ℚ) +
        t * ((next_crop.center_y : ℚ) - (prev_crop.center_y : ℚ)))
      crop_width := prev_crop.crop_width
      crop_height := prev_crop.crop_height
      mode := mode }

/-- `AICroppingService._interpolate_crop_frames`. -/
def interpolate_crop_frames (keyframes : List CropFrame) (indices : List ℤ)
    (total_frames : ℕ) (mode : CroppingMode) : List CropFrame :=
  if keyframes = [] then []
  else (List.range total_frames).map fun (f : ℕ) =>
    interp_one keyframes indices mode (f : ℤ)

/-- The keyframe loop of `AICroppingService._generate_trajectory`:
read each sampled frame in order, stopping at the first failed read
(`if not ret: break`), and pair the crop computed for it with its
output-frame index. -/
def collect_keyframes (read_ok : ℕ → Bool) (crop_at : ℕ → CropFrame) :
    List ℕ → List (CropFrame × ℕ)
  | [] => []
  | i :: rest =>
      if read_ok i then (crop_at i, i) :: collect_keyframes read_ok crop_at rest
      else []

/-- `AICroppingService._generate_trajectory`.  The frame source is
abstracted by `read_ok` (does the seek-and-read at sampled output index
`i` succeed) and, for TRACK strategy, by `center i`, the stabilized
centre `(smooth_x, smooth_y)` obtained for that keyframe from detection
plus `HeavyTripodStabilizer.update` (developed separately below). -/
def generate_trajectory (read_ok : ℕ → Bool) (center : ℕ → ℚ × ℚ)
    (mode : CroppingMode) (fps start_time end_time : ℚ) (width height : ℤ) :
    List CropFrame :=
  let total_frames := total_output_frames start_time end_time fps
  let skip := skip_factor fps
  let crop_at : ℕ → CropFrame := fun i =>
    match mode with
    | CroppingMode.track => track_mode_crop (center i).1 (center i).2 width height
    | CroppingMode.general => general_mode_crop width height
  let keyframes := collect_keyframes read_ok crop_at (sample_indices total_frames skip)
  interpolate_crop_frames (keyframes.map Prod.fst)
    (keyframes.map fun p => (p.2 : ℤ)) total_frames mode

/-- `StabilizerConfig` from `backend/utils/stabilizer.py`.  The
floating-point configuration values are modelled as real numbers. -/
structure StabilizerConfig where
  smoothing_factor : ℝ := 15/100
  max_velocity : ℝ := 30
  lock_threshold : ℝ := 50
  acceleration_smoothing : ℝ := 1/10
  deadzone : ℝ := 20

/-- `TrackingState` from `stabilizer.py`. -/
structure TrackingState where
  current_x : ℝ := 0
  current_y : ℝ := 0
  target_x : ℝ := 0
  target_y : ℝ := 0
  velocity_x : ℝ := 0
  velocity_y : ℝ := 0
  locked : Bool := true
  frames_since_detection : ℕ := 0
  position_history : List (ℝ × ℝ) := []

/-- `HeavyTripodStabilizer`: configuration, mutable state and the
`initialized` flag. -/
structure HeavyTripodStabilizer where
  config : StabilizerConfig
  state : TrackingState
  initialized : Bool := false

namespace HeavyTripodStabilizer

/-- `HeavyTripodStabilizer.reset`. -/
def reset (st : HeavyTripodStabilizer) (initial_x initial_y : ℝ) :
    HeavyTripodStabilizer :=
  { st with
    state :=
      { current_x := initial_x
        current_y := initial_y
        target_x := initial_x
        target_y := initial_y }
    initialized := true }

/-- The target-update step at the top of `update`: a detection with
confidence above 0.5 moves the target, anything weaker only bumps
`frames_since_detection` (the target holds its last value). -/
noncomputable def gated (s : TrackingState) (detected_x detected_y confidence : ℝ) :
    TrackingState :=
  if 1/2 < confidence then
    { s with
      target_x := detected_x
      target_y := detected_y
      frames_since_detection := 0 }
  else
    { s with frames_since_detection := s.frames_since_detection + 1 }

/-- `distance = sqrt(dx*dx + dy*dy)` with `dx`/`dy` the offset from the
current position to the target. -/
noncomputable def distTo (s : TrackingState) : ℝ :=
  Real.sqrt ((s.target_x - s.current_x) * (s.target_x - s.current_x) +
    (s.target_y - s.current_y) * (s.target_y - s.current_y))

/-- `HeavyTripodStabilizer._update_history`: append the current position,
evicting the oldest entry beyond capacity 300. -/
def update_history (s : TrackingState) : TrackingState :=
  let h := s.position_history ++ [(s.current_x, s.current_y)]
  { s with position_history := if 300 < h.length then h.tail else h }

/-- The velocity computation of the unlocked branch of `update`: desired
velocity toward the target scaled by `smoothing_factor`, low-pass
filtered by `acceleration_smoothing`, then magnitude-clamped to
`max_velocity` preserving direction. -/
noncomputable def step_velocity (cfg : StabilizerConfig) (s : TrackingState) :
    ℝ × ℝ :=
  let desired_vx := (s.target_x - s.current_x) * cfg.smoothing_factor
  let desired_vy := (s.target_y - s.current_y) * cfg.smoothing_factor
  let vx := s.velocity_x + (desired_vx - s.velocity_x) * cfg.acceleration_smoothing
  let vy := s.velocity_y + (desired_vy - s.velocity_y) * cfg.acceleration_smoothing
  let velocity_magnitude := Real.sqrt (vx ^ 2 + vy ^ 2)
  if cfg.max_velocity < velocity_magnitude then
    (vx * (cfg.max_velocity / velocity_magnitude),
      vy * (cfg.max_velocity / velocity_magnitude))
  else (vx, vy)

/-- The movement step of the unlocked branch of `update`: apply the
clamped velocity to the current position, then re-lock (zeroing the
velocity) when the new distance to the target has fallen under the
deadzone. -/
noncomputable def step_move (cfg : StabilizerConfig) (s : TrackingState) :
    TrackingState :=
  let v := step_velocity cfg s
  let cx := s.current_x + v.1
  let cy := s.current_y + v.2
  let new_distance := Real.sqrt ((s.target_x - cx) ^ 2 + (s.target_y - cy) ^ 2)
  if new_distance < cfg.deadzone then
    { s with
      current_x := cx
      current_y := cy
      velocity_x := 0
      velocity_y := 0
      locked := true }
  else
    { s with
      current_x := cx
      current_y := cy
      velocity_x := v.1
      velocity_y := v.2 }

/-- `self.state.locked = False`: the unlock assignment taken when the
distance exceeds the lock threshold. -/
def unlocked_from (s : TrackingState) : TrackingState := { s with locked := false }

/-- `HeavyTripodStabilizer.update`: returns the stabilizer after the call
together with the `(smoothed_x, smoothed_y)` result. -/
noncomputable def update (st : HeavyTripodStabilizer)
    (detected_x detected_y confidence : ℝ) :
    HeavyTripodStabilizer × ℝ × ℝ :=
  if st.initialized = false then
    (st.reset detected_x detected_y, detected_x, detected_y)
  else
    let s1 := gated st.state detected_x detected_y confidence
    if distTo s1 < st.config.deadzone then
      ({ st with state := update_history s1 }, s1.current_x, s1.current_y)
    else
      let s2 := if st.config.lock_threshold < distTo s1 then
        unlocked_from s1 else s1
      if s2.locked then
        ({ st with state := update_history s2 }, s2.current_x, s2.current_y)
      else
        let s3 := step_move st.config s2
        ({ st with state := update_history s3 }, s3.current_x, s3.current_y)

/-- The stabilizer configuration constructed in
`AICroppingService.__init__`: smoothing 0.12, max velocity 25, lock
threshold 60, deadzone 25; `acceleration_smoothing` keeps its default
0.1. -/
noncomputable def service_config : StabilizerConfig :=
  { smoothing_factor := 12/100
    max_velocity := 25
    lock_threshold := 60
    acceleration_smoothing := 1/10
    deadzone := 25 }

/-- A freshly reset stabilizer under the service configuration (state all
zero, locked, initialized). -/
noncomputable def fresh_service_stab : HeavyTripodStabilizer :=
  { config := service_config
    state := {}
    initialized := true }

/-- An initialized, unlocked stabilizer at the origin with residual
velocity (5, 0) whose (stale) target sits 100 px away. -/
noncomputable def unlocked_residual_stab : HeavyTripodStabilizer :=
  { config := service_config
    state := ⟨0, 0, 100, 0, 5, 0, false, 0, []⟩
    initialized := true }

/-- An initialized, unlocked stabilizer at rest at the origin. -/
noncomputable def unlocked_rest_stab : HeavyTripodStabilizer :=
  { config := service_config
    state := { locked := false }
    initialized := true }

/-- The observable behavior of one `update` tick taken in the unlocked
movement branch: the position advances by the clamped velocity, the state
re-locks exactly when the post-move distance to the target falls under the
deadzone, and re-locking zeroes the stored velocity. -/
def unlocked_step_behavior (st : HeavyTripodStabilizer) (dx dy conf : ℝ) : Prop :=
  (st.update dx dy conf).1.state.current_x =
      st.state.current_x + (step_velocity st.config (gated st.state dx dy conf)).1 ∧
  (st.update dx dy conf).1.state.current_y =
      st.state.current_y + (step_velocity st.config (gated st.state dx dy conf)).2 ∧
  ((st.update dx dy conf).1.state.locked = true ↔
    Real.sqrt
      (((gated st.state dx dy conf).target_x -
          (st.state.current_x + (step_velocity st.config (gated st.state dx dy conf)).1)) ^ 2 +
        ((gated st.state dx dy conf).target_y -
          (st.state.current_y + (step_velocity st.config (gated st.state dx dy conf)).2)) ^ 2) <
      st.config.deadzone) ∧
  ((st.update dx dy conf).1.state.locked = true →
    (st.update dx dy conf).1.state.velocity_x = 0 ∧
    (st.update dx dy conf).1.state.velocity_y = 0)

end HeavyTripodStabilizer

theorem pyInt_of_nonneg {q : ℚ} (h : 0 ≤ q) : pyInt q = ⌊q⌋ := by
  simp [pyInt, h]

namespace HeavyTripodStabilizer

@[simp]
theorem gated_current_x (s : TrackingState) (dx dy c : ℝ) :
    (gated s dx dy c).current_x = s.current_x := by
  unfold gated; split_ifs <;> rfl

@[simp]
theorem gated_current_y (s : TrackingState) (dx dy c : ℝ) :
    (gated s dx dy c).current_y = s.current_y := by
  unfold gated; split_ifs <;> rfl

@[simp]
theorem gated_velocity_x (s : TrackingState) (dx dy c : ℝ) :
    (gated s dx dy c).velocity_x = s.velocity_x := by
  unfold gated; split_ifs <;> rfl

@[simp]
theorem gated_velocity_y (s : TrackingState) (dx dy c : ℝ) :
    (gated s dx dy c).velocity_y = s.velocity_y := by
  unfold gated; split_ifs <;> rfl

@[simp]
theorem gated_locked (s : TrackingState) (dx dy c : ℝ) :
    (gated s dx dy c).locked = s.locked := by
  unfold gated; split_ifs <;> rfl

@[simp]
theorem update_history_current_x (s : TrackingState) :
    (update_history s).current_x = s.current_x := rfl

@[simp]
theorem update_history_current_y (s : TrackingState) :
    (update_history s).current_y = s.current_y := rfl

@[simp]
theorem update_history_velocity_x (s : TrackingState) :
    (update_history s).velocity_x = s.velocity_x := rfl

@[simp]
theorem update_history_velocity_y (s : TrackingState) :
    (update_history s).velocity_y = s.velocity_y := rfl

@[simp]
theorem update_history_locked (s : TrackingState) :
    (update_history s).locked = s.locked := rfl

@[simp]
theorem update_history_target_x (s : TrackingState) :
    (update_history s).target_x = s.target_x := rfl

@[simp]
theorem update_history_target_y (s : TrackingState) :
    (update_history s).target_y = s.target_y := rfl

@[simp]
theorem unlocked_from_current_x (s : TrackingState) :
    (unlocked_from s).current_x = s.current_x := rfl

@[simp]
theorem unlocked_from_current_y (s : TrackingState) :
    (unlocked_from s).current_y = s.current_y := rfl

@[simp]
theorem unlocked_from_target_x (s : TrackingState) :
    (unlocked_from s).target_x = s.target_x := rfl

@[simp]
theorem unlocked_from_target_y (s : TrackingState) :
    (unlocked_from s).target_y = s.target_y := rfl

@[simp]
theorem unlocked_from_velocity_x (s : TrackingState) :
    (unlocked_from s).velocity_x = s.velocity_x := rfl

@[simp]
theorem unlocked_from_velocity_y (s : TrackingState) :
    (unlocked_from s).velocity_y = s.velocity_y := rfl

@[simp]
theorem unlocked_from_locked (s : TrackingState) :
    (unlocked_from s).locked = false := rfl

@[simp]
theorem step_velocity_unlocked_from (cfg : StabilizerConfig) (s : TrackingState) :
    step_velocity cfg (unlocked_from s) = step_velocity cfg s := rfl

/-- The clamped velocity never exceeds `max_velocity` in magnitude,
whatever the incoming state. -/
theorem step_velocity_norm_le (cfg : StabilizerConfig) (s : TrackingState)
    (hmax : 0 ≤ cfg.max_velocity) :
    Real.sqrt ((step_velocity cfg s).1 ^ 2 + (step_velocity cfg s).2 ^ 2) ≤
      cfg.max_velocity := by
  simp only [step_velocity]
  split_ifs with h
  · set vx := s.velocity_x +
      ((s.target_x - s.current_x) * cfg.smoothing_factor - s.velocity_x) *
        cfg.acceleration_smoothing with hvx
    set vy := s.velocity_y +
      ((s.target_y - s.current_y) * cfg.smoothing_factor - s.velocity_y) *
        cfg.acceleration_smoothing with hvy
    have hm : 0 < Real.sqrt (vx ^ 2 + vy ^ 2) := lt_of_le_of_lt hmax h
    have key : (vx * (cfg.max_velocity / Real.sqrt (vx ^ 2 + vy ^ 2))) ^ 2 +
        (vy * (cfg.max_velocity / Real.sqrt (vx ^ 2 + vy ^ 2))) ^ 2 =
        (vx ^ 2 + vy ^ 2) * (cfg.max_velocity / Real.sqrt (vx ^ 2 + vy ^ 2)) ^ 2 := by
      ring
    rw [key, Real.sqrt_mul (by positivity), Real.sqrt_sq_eq_abs,
      abs_of_nonneg (div_nonneg hmax hm.le), mul_comm,
      div_mul_cancel₀ _ hm.ne']
  · exact not_lt.mp h

theorem step_move_current_x (cfg : StabilizerConfig) (s : TrackingState) :
    (step_move cfg s).current_x = s.current_x + (step_velocity cfg s).1 := by
  simp only [step_move]
  split_ifs <;> rfl

theorem step_move_current_y (cfg : StabilizerConfig) (s : TrackingState) :
    (step_move cfg s).current_y = s.current_y + (step_velocity cfg s).2 := by
  simp only [step_move]
  split_ifs <;> rfl

/-- The velocity stored after a movement step is either the clamped
velocity or zero (on re-lock). -/
theorem step_move_velocity (cfg : StabilizerConfig) (s : TrackingState) :
    ((step_move cfg s).velocity_x = (step_velocity cfg s).1 ∧
      (step_move cfg s).velocity_y = (step_velocity cfg s).2) ∨
    ((step_move cfg s).velocity_x = 0 ∧ (step_move cfg s).velocity_y = 0) := by
  simp only [step_move]
  split_ifs
  · exact Or.inr ⟨rfl, rfl⟩
  · exact Or.inl ⟨rfl, rfl⟩

/-- A movement step on an unlocked state re-locks exactly when the
post-move distance to the target has fallen under the deadzone, and
re-locking zeroes the velocity. -/
theorem step_move_locked_iff (cfg : StabilizerConfig) (s : TrackingState)
    (hl : s.locked = false) :
    ((step_move cfg s).locked = true ↔
      Real.sqrt ((s.target_x - (s.current_x + (step_velocity cfg s).1)) ^ 2 +
        (s.target_y - (s.current_y + (step_velocity cfg s).2)) ^ 2) < cfg.deadzone) ∧
    ((step_move cfg s).locked = true →
      (step_move cfg s).velocity_x = 0 ∧ (step_move cfg s).velocity_y = 0) := by
  simp only [step_move]
  split_ifs with h
  · exact ⟨⟨fun _ => h, fun _ => rfl⟩, fun _ => ⟨rfl, rfl⟩⟩
  · refine ⟨⟨fun hc => absurd hc (by simp [hl]), fun hc => absurd hc h⟩, ?_⟩
    intro hc
    exact absurd hc (by simp [hl])

/-- `update` in the deadzone regime: early return, the state only gains a
history entry. -/
theorem update_eq_of_deadzone (st : HeavyTripodStabilizer) (dx dy conf : ℝ)
    (hinit : st.initialized = true)
    (hdz : distTo (gated st.state dx dy conf) < st.config.deadzone) :
    st.update dx dy conf =
      ({ st with state := update_history (gated st.state dx dy conf) },
        (gated st.state dx dy conf).current_x,
        (gated st.state dx dy conf).current_y) := by
  rw [update, if_neg (by simp [hinit])]
  simp only []
  rw [if_pos hdz]

/-- `update` in the locked regime (distance between deadzone and lock
threshold): early return, still locked. -/
theorem update_eq_of_locked (st : HeavyTripodStabilizer) (dx dy conf : ℝ)
    (hinit : st.initialized = true)
    (hdz : ¬ distTo (gated st.state dx dy conf) < st.config.deadzone)
    (hlk : ¬ st.config.lock_threshold < distTo (gated st.state dx dy conf))
    (hl : (gated st.state dx dy conf).locked = true) :
    st.update dx dy conf =
      ({ st with state := update_history (gated st.state dx dy conf) },
        (gated st.state dx dy conf).current_x,
        (gated st.state dx dy conf).current_y) := by
  rw [update, if_neg (by simp [hinit])]
  simp only []
  rw [if_neg hdz, if_neg hlk, if_pos hl]

/-- `update` when the lock threshold is exceeded: the state unlocks and a
movement step is taken. -/
theorem update_eq_of_unlock_move (st : HeavyTripodStabilizer) (dx dy conf : ℝ)
    (hinit : st.initialized = true)
    (hdz : ¬ distTo (gated st.state dx dy conf) < st.config.deadzone)
    (hlk : st.config.lock_threshold < distTo (gated st.state dx dy conf)) :
    st.update dx dy conf =
      ({ st with
          state := update_history
            (step_move st.config (unlocked_from (gated st.state dx dy conf))) },
        (step_move st.config (unlocked_from (gated st.state dx dy conf))).current_x,
        (step_move st.config (unlocked_from (gated st.state dx dy conf))).current_y) := by
  rw [update, if_neg (by simp [hinit])]
  simp only []
  rw [if_neg hdz, if_pos hlk,
    if_neg (by simp : ¬(unlocked_from (gated st.state dx dy conf)).locked = true)]

/-- `update` on an already unlocked state beyond the deadzone: a movement
step is taken. -/
theorem update_eq_of_stay_move (st : HeavyTripodStabilizer) (dx dy conf : ℝ)
    (hinit : st.initialized = true)
    (hdz : ¬ distTo (gated st.state dx dy conf) < st.config.deadzone)
    (hlk : ¬ st.config.lock_threshold < distTo (gated st.state dx dy conf))
    (hl : (gated st.state dx dy conf).locked = false) :
    st.update dx dy conf =
      ({ st with
          state := update_history
            (step_move st.config (gated st.state dx dy conf)) },
        (step_move st.config (gated st.state dx dy conf)).current_x,
        (step_move st.config (gated st.state dx dy conf)).current_y) := by
  rw [update, if_neg (by simp [hinit])]
  simp only []
  rw [if_neg hdz, if_neg hlk, if_neg (by rw [hl]; simp)]

end HeavyTripodStabilizer

/-! ## The bracketing-keyframe search -/

theorem bracket_aux_nil (f : ℤ) (fb : ℕ) (i prev : ℕ) :
    bracket_aux f fb [] i prev = (prev, fb) := rfl

theorem bracket_aux_head_ge (f : ℤ) (fb : ℕ) (k : ℤ) (rest : List ℤ)
    (i prev : ℕ) (h : f ≤ k) :
    bracket_aux f fb (k :: rest) i prev = (if k ≤ f then i else prev, i) := by
  rw [bracket_aux]
  simp [h]

theorem bracket_aux_head_lt (f : ℤ) (fb : ℕ) (k : ℤ) (rest : List ℤ)
    (i prev : ℕ) (h : k < f) :
    bracket_aux f fb (k :: rest) i prev = bracket_aux f fb rest (i + 1) i := by
  rw [bracket_aux]
  simp [le_of_lt h, not_le.mpr h]

/-- Consuming a block of indices that all lie strictly before the frame
index: the scan walks past them, tracking the last one as `prev`. -/
theorem bracket_aux_append (f : ℤ) (fb : ℕ) (A l2 : List ℤ)
    (hA : ∀ x ∈ A, x < f) (i prev : ℕ) :
    bracket_aux f fb (A ++ l2) i prev =
      bracket_aux f fb l2 (i + A.length)
        (if A.length = 0 then prev else i + A.length - 1) := by
  induction A generalizing i prev with
  | nil => simp
  | cons a A ih =>
      have ha : a < f := hA a (by simp)
      rw [List.cons_append, bracket_aux_head_lt f fb a _ i prev ha,
        ih (fun x hx => hA x (by simp [hx])) (i + 1) i]
      have e2 : (if A.length = 0 then i else i + 1 + A.length - 1) =
          (if (a :: A).length = 0 then prev else i + (a :: A).length - 1) := by
        rcases A with _ | ⟨b, B⟩
        · simp
        · simp only [List.length_cons, if_neg (Nat.succ_ne_zero _)]
          omega
      rw [e2]
      have e1 : i + 1 + A.length = i + (a :: A).length := by
        simp only [List.length_cons]
        omega
      rw [e1]

/-- A frame index at or before the head keyframe index brackets to
`(0, 0)`. -/
theorem find_bracket_le_head (k : ℤ) (rest : List ℤ) (f : ℤ) (nk : ℕ)
    (hf : f ≤ k) : find_bracket (k :: rest) f nk = (0, 0) := by
  rw [find_bracket, bracket_aux_head_ge f _ k rest 0 0 hf]
  split_ifs <;> rfl

/-- A frame index equal to the keyframe index at position `j` brackets to
`(j, j)`. -/
theorem find_bracket_eq (idx : List ℤ) (hs : idx.Sorted (· < ·)) (j : ℕ)
    (hj : j < idx.length) (nk : ℕ) (f : ℤ) (hf : f = idx[j]) :
    find_bracket idx f nk = (j, j) := by
  have hd : idx.take j ++ idx[j] :: idx.drop (j + 1) = idx := by
    rw [← List.drop_eq_getElem_cons hj, List.take_append_drop]
  have htk : (idx.take j).length = j := by
    rw [List.length_take]
    omega
  have hA : ∀ x ∈ idx.take j, x < f := by
    intro x hx
    obtain ⟨i, hi, rfl⟩ := List.getElem_of_mem hx
    have hi2 : i < j := by
      have := htk ▸ hi
      omega
    rw [List.getElem_take, hf]
    exact List.pairwise_iff_getElem.mp hs i j (by omega) hj hi2
  rw [find_bracket]
  conv_lhs => rw [← hd]
  rw [bracket_aux_append _ _ _ _ hA 0 0,
    bracket_aux_head_ge _ _ _ _ _ _ (le_of_eq hf),
    if_pos (le_of_eq hf.symm), htk]
  rcases Nat.eq_zero_or_pos j with h0 | h0
  · simp [h0]
  · simp

/-- A frame index strictly beyond the last keyframe index brackets to
`(len - 1, fallback)`. -/
theorem find_bracket_gt_last (idx : List ℤ) (hs : idx.Sorted (· < ·))
    (hne : idx ≠ []) (f : ℤ) (hf : idx.get ⟨idx.length - 1, by
      have := List.length_pos.mpr hne
      omega⟩ < f) (nk : ℕ) :
    find_bracket idx f nk = (idx.length - 1, nk - 1) := by
  have hlen : 0 < idx.length := List.length_pos.mpr hne
  have hA : ∀ x ∈ idx, x < f := by
    intro x hx
    obtain ⟨i, hi, rfl⟩ := List.getElem_of_mem hx
    rcases Nat.lt_or_ge i (idx.length - 1) with h | h
    · exact lt_trans (List.pairwise_iff_getElem.mp hs i (idx.length - 1)
        hi (by omega) h) hf
    · have : i = idx.length - 1 := by omega
      subst this
      exact hf
  rw [find_bracket]
  conv_lhs => rw [← List.append_nil idx]
  rw [bracket_aux_append _ _ _ _ hA 0 0, bracket_aux_nil]
  rw [if_neg (by omega : ¬ idx.length = 0)]
  simp

/-- A frame index strictly between the keyframe indices at positions `j`
and `j + 1` brackets to `(j, j + 1)`. -/
theorem find_bracket_between (idx : List ℤ) (hs : idx.Sorted (· < ·))
    (j : ℕ) (hj : j + 1 < idx.length) (f : ℤ)
    (h1 : idx.get ⟨j, by omega⟩ < f) (h2 : f < idx[j + 1]) (nk : ℕ) :
    find_bracket idx f nk = (j, j + 1) := by
  have hd : idx.take (j + 1) ++ idx[j + 1] :: idx.drop (j + 2) = idx := by
    rw [← List.drop_eq_getElem_cons hj, List.take_append_drop]
  have htk : (idx.take (j + 1)).length = j + 1 := by
    rw [List.length_take]
    omega
  have hA : ∀ x ∈ idx.take (j + 1), x < f := by
    intro x hx
    obtain ⟨i, hi, rfl⟩ := List.getElem_of_mem hx
    rw [List.getElem_take]
    rcases Nat.lt_or_ge i j with h | h
    · exact lt_trans (List.pairwise_iff_getElem.mp hs i j _ (by omega) h) h1
    · have : i = j := by
        have := htk ▸ hi
        omega
      subst this
      exact h1
  rw [find_bracket]
  conv_lhs => rw [← hd]
  rw [bracket_aux_append _ _ _ _ hA 0 0,
    bracket_aux_head_ge _ _ _ _ _ _ (le_of_lt h2), if_neg (not_le.mpr h2), htk]
  simp

/-! ## Interpolation lemmas -/

theorem interp_one_of_bracket_eq (keyframes : List CropFrame)
    (indices : List ℤ) (mode : CroppingMode) (f : ℤ) (p : ℕ)
    (hb : find_bracket indices f keyframes.length = (p, p)) :
    interp_one keyframes indices mode f = keyframes.getD p default := by
  simp [interp_one, hb]

theorem interp_one_of_bracket_lerp (keyframes : List CropFrame)
    (indices : List ℤ) (mode : CroppingMode) (f : ℤ) (j : ℕ)
    (hb : find_bracket indices f keyframes.length = (j, j + 1))
    (hne : indices.getD (j + 1) 0 ≠ indices.getD j 0) :
    interp_one keyframes indices mode f =
      { center_x := pyInt (((keyframes.getD j default).center_x : ℚ) +
          ((f : ℚ) - (indices.getD j 0 : ℚ)) /
            ((indices.getD (j + 1) 0 : ℚ) - (indices.getD j 0 : ℚ)) *
          (((keyframes.getD (j + 1) default).center_x : ℚ) -
            ((keyframes.getD j default).center_x : ℚ)))
        center_y := pyInt (((keyframes.getD j default).center_y : ℚ) +
          ((f : ℚ) - (indices.getD j 0 : ℚ)) /
            ((indices.getD (j + 1) 0 : ℚ) - (indices.getD j 0 : ℚ)) *
          (((keyframes.getD (j + 1) default).center_y : ℚ) -
            ((keyframes.getD j default).center_y : ℚ)))
        crop_width := (keyframes.getD j default).crop_width
        crop_height := (keyframes.getD j default).crop_height
        mode := mode } := by
  rw [interp_one]
  simp only [hb]
  rw [if_neg (by
    push_neg
    exact ⟨by omega, hne⟩)]

theorem interpolate_getD (keyframes : List CropFrame) (indices : List ℤ)
    (total_frames : ℕ) (mode : CroppingMode) (hne : keyframes ≠ [])
    (f : ℕ) (hf : f < total_frames) :
    (interpolate_crop_frames keyframes indices total_frames mode).getD f default =
      interp_one keyframes indices mode (f : ℤ) := by
  rw [interpolate_crop_frames, if_neg hne]
  have hlt : f < ((List.range total_frames).map
      (fun (g : ℕ) => interp_one keyframes indices mode (g : ℤ))).length := by
    simpa using hf
  rw [List.getD_eq_getElem _ _ hlt]
  simp

theorem interpolate_length (keyframes : List CropFrame) (indices : List ℤ)
    (total_frames : ℕ) (mode : CroppingMode) (hne : keyframes ≠ []) :
    (interpolate_crop_frames keyframes indices total_frames mode).length =
      total_frames := by
  rw [interpolate_crop_frames, if_neg hne]
  simp

theorem sample_indices_head (total skip : ℕ) (h1 : 1 ≤ total)
    (h2 : 1 ≤ skip) : ∃ rest, sample_indices total skip = 0 :: rest := by
  rw [sample_indices]
  have hn : 1 ≤ (total + skip - 1) / skip := by
    rw [Nat.le_div_iff_mul_le (by omega : 0 < skip)]
    omega
  obtain ⟨m, hm⟩ := Nat.exists_eq_add_of_le hn
  refine ⟨((List.range m).map Nat.succ).map (· * skip), ?_⟩
  rw [hm, Nat.add_comm 1 m, List.range_succ_eq_map]
  simp

/-! ## Claims about subject detection and scene classification -/

/-- C1, counterexample: with neither MediaPipe nor YOLO available,
`_detect_faces` returns the empty list — not a singleton synthetic
center-weighted region of confidence 0.8, and in particular the result
list is empty. -/
theorem claim_C1_counterexample :
    detect_faces none none 1920 1080 = [] ∧
    (detect_faces none none 1920 1080).length ≠ 1 :=
  ⟨rfl, by decide⟩

/-- C1 (amended): `_detect_faces` is total (never throws) and, whenever no
real backend is available, returns the empty list; no synthetic region is
produced at the detector level.  The center fallback lives downstream
instead: `_track_mode_crop` turns the empty detection list into the frame
centre at confidence 0.3. -/
theorem claim_C1_detect_no_backend (width height : ℤ) :
    detect_faces none none width height = [] ∧
    track_detect_input (detect_faces none none width height) width height =
      (width.fdiv 2, height.fdiv 2, 3/10) := by
  constructor <;> rfl

/-- C2, counterexample: a segment in which all ten sampled frames fail to
decode is classified TRACK, not GENERAL (average 0 ≤ 1.5 and maximum
0 ≤ 2 satisfy the TRACK rule vacuously). -/
theorem claim_C2_counterexample :
    (do_scene_analysis (List.replicate 10 none) []).mode ≠
      CroppingMode.general := by
  have h : (do_scene_analysis (List.replicate 10 none) []).mode =
      CroppingMode.track := by
    norm_num [do_scene_analysis, avg_faces, max_faces, face_counts,
      List.filterMap_replicate]
  rw [h]
  decide

/-- C2 (amended): for every segment in which zero sampled frames decode,
scene classification returns — without raising — strategy TRACK (the
thresholds are vacuously satisfied by average 0 and maximum 0), detection
count 0, a null primary region, no retained detections and motion score
0. -/
theorem claim_C2_zero_frames (samples : List (Option (List FaceDetection)))
    (hall : ∀ s ∈ samples, s = none) :
    (do_scene_analysis samples []).mode = CroppingMode.track ∧
    (do_scene_analysis samples []).face_count = 0 ∧
    (do_scene_analysis samples []).primary_face = none ∧
    (do_scene_analysis samples []).all_faces = [] ∧
    (do_scene_analysis samples []).movement_score = 0 := by
  have hnil : samples.filterMap id = [] := by
    rw [List.filterMap_eq_nil_iff]
    intro a ha
    simpa using hall a ha
  norm_num [do_scene_analysis, avg_faces, max_faces, face_counts, hnil, pyInt]

/-- C2 witness: the amended claim at a concrete all-failed sample run. -/
theorem claim_C2_zero_frames_witness :
    (∀ s ∈ [(none : Option (List FaceDetection)), none], s = none) ∧
    (do_scene_analysis [(none : Option (List FaceDetection)), none] []).mode =
      CroppingMode.track :=
  ⟨by decide, (claim_C2_zero_frames [none, none] (by decide)).1⟩

/-- C5: with at least one decoded sample frame, the chosen strategy is
TRACK exactly when the average detection count is at most 1.5 and the
maximum detection count is at most 2; otherwise it is GENERAL. -/
theorem claim_C5_mode_threshold (samples : List (Option (List FaceDetection)))
    (movement_scores : List ℚ) (hne : face_counts samples ≠ []) :
    (do_scene_analysis samples movement_scores).mode = CroppingMode.track ↔
      (avg_faces samples ≤ 3/2 ∧ max_faces samples ≤ 2) := by
  simp only [do_scene_analysis]
  split_ifs with h
  · simpa using h
  · simpa using h

/-- C5 witness: two decoded frames with 0 and 2 detections (average 1.0,
maximum 2) classify as TRACK. -/
theorem claim_C5_mode_threshold_witness :
    face_counts [some [], some [⟨0, 0, 1, 1, 1, false⟩,
        ⟨0, 0, 1, 1, 1, false⟩]] ≠ [] ∧
    ((do_scene_analysis [some [], some [⟨0, 0, 1, 1, 1, false⟩,
        ⟨0, 0, 1, 1, 1, false⟩]] []).mode = CroppingMode.track ↔
      (avg_faces [some [], some [⟨0, 0, 1, 1, 1, false⟩,
        ⟨0, 0, 1, 1, 1, false⟩]] ≤ 3/2 ∧
       max_faces [some [], some [⟨0, 0, 1, 1, 1, false⟩,
        ⟨0, 0, 1, 1, 1, false⟩]] ≤ 2)) :=
  ⟨by decide, claim_C5_mode_threshold _ [] (by decide)⟩

/-- C6, counterexample: at a source rate of 19 fps the generator's skip
factor is `max(1, int(19 / 10)) = 1`, while the claimed formula
`max(1, round(19 / 10))` gives 2. -/
theorem claim_C6_counterexample :
    skip_factor 19 ≠ claimed_skip_factor 19 := by
  have h1 : ⌊(19 : ℚ) / 10⌋ = 1 := by
    rw [Int.floor_eq_iff] <;> norm_num
  have h2 : round ((19 : ℚ) / 10) = 2 := by
    rw [round_eq, Int.floor_eq_iff] <;> norm_num
  have e1 : skip_factor 19 = 1 := by norm_num [skip_factor, pyInt, h1]
  have e2 : claimed_skip_factor 19 = 2 := by
    norm_num [claimed_skip_factor, h2]
    decide
  rw [e1, e2]
  decide

/-- C6 (amended): the keyframe sampling skip factor equals
`max(1, ⌊fps / 10⌋)` — truncation, not rounding, of `fps / 10` — for every
nonnegative source fps: whenever `10k ≤ fps < 10(k+1)` the skip factor is
`max 1 k`. -/
theorem claim_C6_skip_factor (fps : ℚ) (k : ℕ)
    (hlo : (k : ℚ) * 10 ≤ fps) (hhi : fps < ((k : ℚ) + 1) * 10) :
    skip_factor fps = max 1 k := by
  have hfps : (0 : ℚ) ≤ fps := le_trans (by positivity) hlo
  have hfloor : ⌊fps / 10⌋ = (k : ℤ) := by
    rw [Int.floor_eq_iff]
    constructor
    · rw [le_div_iff (by norm_num : (0:ℚ) < 10)]
      exact_mod_cast hlo
    · rw [div_lt_iff (by norm_num : (0:ℚ) < 10)]
      push_cast
      linarith
  simp [skip_factor, pyInt_of_nonneg (by positivity : (0:ℚ) ≤ fps / 10), hfloor]

/-- C6 witness: at 19 fps the characterization applies with `k = 1` and
yields skip factor 1. -/
theorem claim_C6_skip_factor_witness :
    ((1 : ℚ) * 10 ≤ 19) ∧ ((19 : ℚ) < ((1 : ℚ) + 1) * 10) ∧
      skip_factor 19 = max 1 1 :=
  ⟨by norm_num, by norm_num,
    claim_C6_skip_factor 19 1 (by norm_num) (by norm_num)⟩

/-! ## Crop-dimension lemmas -/

/-- The track-mode crop box fits in the source frame and its sides are in
9:16 proportion up to the source's integer truncation: either the width
is `int(height * 9 / 16)` or (when clamped) the height is
`int(width * 16 / 9)`. -/
theorem track_mode_crop_spec (sx sy : ℚ) (w h : ℤ) (hw : 0 ≤ w)
    (hh : 0 ≤ h) :
    (track_mode_crop sx sy w h).crop_width ≤ w ∧
    (track_mode_crop sx sy w h).crop_height ≤ h ∧
    ((track_mode_crop sx sy w h).crop_width =
        ⌊(9 * ((track_mode_crop sx sy w h).crop_height : ℚ)) / 16⌋ ∨
      (track_mode_crop sx sy w h).crop_height =
        ⌊(16 * ((track_mode_crop sx sy w h).crop_width : ℚ)) / 9⌋) ∧
    (track_mode_crop sx sy w h).mode = CroppingMode.track := by
  have hhq : (0 : ℚ) ≤ (h : ℚ) := by exact_mod_cast hh
  have hwq : (0 : ℚ) ≤ (w : ℚ) := by exact_mod_cast hw
  have hfl_h : pyInt ((h : ℚ) * 9 / 16) = ⌊(h : ℚ) * 9 / 16⌋ :=
    pyInt_of_nonneg (by positivity)
  have hfl_w : pyInt ((w : ℚ) * 16 / 9) = ⌊(w : ℚ) * 16 / 9⌋ :=
    pyInt_of_nonneg (by positivity)
  rw [track_mode_crop]
  split_ifs with hcw
  · refine ⟨le_refl w, ?_, Or.inr ?_, rfl⟩
    · show pyInt ((w : ℚ) * 16 / 9) ≤ h
      rw [hfl_w]
      rw [hfl_h] at hcw
      have h1 : ((w : ℚ) + 1) ≤ (h : ℚ) * 9 / 16 := by
        have h2 : (w + 1 : ℤ) ≤ ⌊(h : ℚ) * 9 / 16⌋ := by omega
        exact_mod_cast Int.le_floor.mp h2
      have h2 : (w : ℚ) * 16 / 9 < (h : ℚ) := by
        rw [div_lt_iff₀ (by norm_num : (0:ℚ) < 9)]
        rw [le_div_iff₀ (by norm_num : (0:ℚ) < 16)] at h1
        linarith
      exact le_of_lt (Int.floor_lt.mpr (by exact_mod_cast h2))
    · show pyInt ((w : ℚ) * 16 / 9) = ⌊(16 * ((w : ℤ) : ℚ)) / 9⌋
      rw [hfl_w]
      congr 1
      ring
  · refine ⟨not_lt.mp hcw, le_refl h, Or.inl ?_, rfl⟩
    show pyInt ((h : ℚ) * 9 / 16) = ⌊(9 * ((h : ℤ) : ℚ)) / 16⌋
    rw [hfl_h]
    congr 1
    ring

/-- The general-mode crop is the centred full frame. -/
theorem general_mode_crop_spec (w h : ℤ) :
    (general_mode_crop w h).crop_width = w ∧
    (general_mode_crop w h).crop_height = h ∧
    (general_mode_crop w h).mode = CroppingMode.general :=
  ⟨rfl, rfl, rfl⟩

/-- Every keyframe collected by the sampling loop is the crop computed
for its own index. -/
theorem collect_keyframes_mem (read_ok : ℕ → Bool) (crop_at : ℕ → CropFrame) :
    ∀ l : List ℕ, ∀ p ∈ collect_keyframes read_ok crop_at l,
      p.1 = crop_at p.2 := by
  intro l
  induction l with
  | nil =>
      intro p hp
      simp [collect_keyframes] at hp
  | cons i rest ih =>
      intro p hp
      rw [collect_keyframes] at hp
      by_cases hr : read_ok i = true
      · rw [if_pos hr] at hp
        rcases List.mem_cons.mp hp with rfl | hp2
        · rfl
        · exact ih p hp2
      · rw [if_neg hr] at hp
        simp at hp

/-- Every interpolated crop frame takes its box dimensions from one of
the keyframes (or the default frame on an out-of-range access), and is
either that keyframe itself or carries the requested strategy. -/
theorem interp_one_dims (keyframes : List CropFrame) (indices : List ℤ)
    (mode : CroppingMode) (f : ℤ) :
    ∃ k, (k ∈ keyframes ∨ k = default) ∧
      (interp_one keyframes indices mode f).crop_width = k.crop_width ∧
      (interp_one keyframes indices mode f).crop_height = k.crop_height ∧
      (interp_one keyframes indices mode f = k ∨
        (interp_one keyframes indices mode f).mode = mode) := by
  have hmem : ∀ p : ℕ, keyframes.getD p default ∈ keyframes ∨
      keyframes.getD p default = default := by
    intro p
    by_cases hp : p < keyframes.length
    · left
      rw [List.getD_eq_getElem _ _ hp]
      exact List.getElem_mem hp
    · right
      exact List.getD_eq_default _ _ (by omega)
  rw [interp_one]
  simp only []
  split_ifs with hc
  · exact ⟨keyframes.getD (find_bracket indices f keyframes.length).1 default,
      hmem _, rfl, rfl, Or.inl rfl⟩
  · exact ⟨keyframes.getD (find_bracket indices f keyframes.length).1 default,
      hmem _, rfl, rfl, Or.inr rfl⟩

/-- Concrete evaluation of a one-keyframe TRACK trajectory on a square
1000 × 1000 source: the 9:16 box truncates to 562 × 1000. -/
theorem track_example_eval :
    generate_trajectory (fun _ => true) (fun _ => (500, 500))
        CroppingMode.track 30 0 (1/30) 1000 1000 =
      [⟨500, 500, 562, 1000, CroppingMode.track⟩] := by
  have h1 : total_output_frames 0 (1/30) 30 = 1 := by
    have ha : ⌊(1/30 : ℚ) * 30⌋ = 1 := by norm_num
    have hb : ⌊(0 : ℚ) * 30⌋ = 0 := by norm_num
    rw [total_output_frames, pyInt_of_nonneg (by norm_num),
      pyInt_of_nonneg (by norm_num), ha, hb]
    rfl
  have hskip : skip_factor 30 = 3 := by
    have hc : ⌊(30 : ℚ) / 10⌋ = 3 := by norm_num
    rw [skip_factor, pyInt_of_nonneg (by norm_num), hc]
    rfl
  have hcw : pyInt (((1000 : ℤ) : ℚ) * 9 / 16) = 562 := by
    rw [pyInt_of_nonneg (by norm_num)]
    push_cast
    norm_num
  have hcx : pyInt (500 : ℚ) = 500 := by
    rw [pyInt_of_nonneg (by norm_num)]
    norm_num
  have hcrop : track_mode_crop 500 500 1000 1000 =
      ⟨500, 500, 562, 1000, CroppingMode.track⟩ := by
    rw [track_mode_crop]
    rw [if_neg (by rw [hcw]; norm_num)]
    rw [hcw, hcx]
  rw [generate_trajectory]
  simp only [h1, hskip]
  have hsi : sample_indices 1 3 = [0] := by decide
  rw [hsi]
  rw [show ([0] : List ℕ) = 0 :: [] from rfl, collect_keyframes,
    if_pos (rfl : (fun (_ : ℕ) => true) 0 = true), collect_keyframes]
  simp only [List.map_cons, List.map_nil]
  rw [hcrop]
  rw [interpolate_crop_frames,
    if_neg (by simp : ¬([⟨500, 500, 562, 1000, CroppingMode.track⟩] :
      List CropFrame) = [])]
  rw [show List.range 1 = [0] from rfl]
  simp only [List.map_cons, List.map_nil]
  rw [interp_one_of_bracket_eq _ _ _ _ 0 (by decide)]
  rfl

/-! ## Claims about trajectory generation -/

/-- C3, counterexample: a one-output-frame segment whose only sampled
read fails yields an empty trajectory — zero entries, not one per output
frame. -/
theorem claim_C3_counterexample :
    (generate_trajectory (fun _ => false) (fun _ => (0, 0))
        CroppingMode.general 30 0 (1/30) 1920 1080).length = 0 ∧
    total_output_frames 0 (1/30) 30 = 1 := by
  have h1 : total_output_frames 0 (1/30) 30 = 1 := by
    have ha : ⌊(1/30 : ℚ) * 30⌋ = 1 := by norm_num
    have hb : ⌊(0 : ℚ) * 30⌋ = 0 := by norm_num
    rw [total_output_frames, pyInt_of_nonneg (by norm_num),
      pyInt_of_nonneg (by norm_num), ha, hb]
    rfl
  have hskip : skip_factor 30 = 3 := by
    have hc : ⌊(30 : ℚ) / 10⌋ = 3 := by norm_num
    rw [skip_factor, pyInt_of_nonneg (by norm_num), hc]
    rfl
  refine ⟨?_, h1⟩
  rw [generate_trajectory]
  simp only [h1, hskip]
  have hsi : sample_indices 1 3 = [0] := by decide
  rw [hsi]
  simp [collect_keyframes, interpolate_crop_frames]

/-- C3 (amended): whenever the first sampled frame of the segment
decodes, the trajectory generator returns exactly `totalFrames` entries,
where `totalFrames = int(end_time * fps) - int(start_time * fps)` as the
source computes it; when no sampled frame decodes the result is empty
instead. -/
theorem claim_C3_trajectory_length (read_ok : ℕ → Bool) (center : ℕ → ℚ × ℚ)
    (mode : CroppingMode) (fps start_time end_time : ℚ) (width height : ℤ)
    (h0 : read_ok 0 = true)
    (h1 : 1 ≤ total_output_frames start_time end_time fps) :
    (generate_trajectory read_ok center mode fps start_time end_time
        width height).length =
      total_output_frames start_time end_time fps := by
  obtain ⟨rest, hrest⟩ := sample_indices_head
    (total_output_frames start_time end_time fps) (skip_factor fps) h1
    (le_max_left 1 _)
  rw [generate_trajectory]
  simp only [hrest]
  apply interpolate_length
  simp [collect_keyframes, h0]

/-- C3 witness: a ten-output-frame segment at 30 fps with every read
succeeding produces exactly ten crop frames. -/
theorem claim_C3_trajectory_length_witness :
    (fun (_ : ℕ) => true) 0 = true ∧
    1 ≤ total_output_frames 0 (1/3) 30 ∧
    (generate_trajectory (fun _ => true) (fun _ => (0, 0))
        CroppingMode.general 30 0 (1/3) 1920 1080).length =
      total_output_frames 0 (1/3) 30 := by
  have h1 : total_output_frames 0 (1/3) 30 = 10 := by
    have ha : ⌊(1/3 : ℚ) * 30⌋ = 10 := by norm_num
    have hb : ⌊(0 : ℚ) * 30⌋ = 0 := by norm_num
    rw [total_output_frames, pyInt_of_nonneg (by norm_num),
      pyInt_of_nonneg (by norm_num), ha, hb]
    rfl
  exact ⟨rfl, by rw [h1]; norm_num,
    claim_C3_trajectory_length _ _ _ _ _ _ _ _ rfl (by rw [h1]; norm_num)⟩

/-- C4, counterexample: on a 1000 × 1000 source the TRACK crop is
562 × 1000 (`int(1000 * 9 / 16) = 562`), whose sides are *not* in exact
9:16 proportion (16 · 562 = 8992 ≠ 9000 = 9 · 1000). -/
theorem claim_C4_counterexample :
    ((generate_trajectory (fun _ => true) (fun _ => (500, 500))
        CroppingMode.track 30 0 (1/30) 1000 1000).getD 0 default).mode =
      CroppingMode.track ∧
    16 * ((generate_trajectory (fun _ => true) (fun _ => (500, 500))
        CroppingMode.track 30 0 (1/30) 1000 1000).getD 0 default).crop_width ≠
      9 * ((generate_trajectory (fun _ => true) (fun _ => (500, 500))
        CroppingMode.track 30 0 (1/30) 1000 1000).getD 0 default).crop_height := by
  rw [track_example_eval]
  refine ⟨rfl, ?_⟩
  decide

/-- C4 (amended): every crop frame produced by trajectory generation on a
source of nonnegative dimensions has `crop_width ≤ width` and
`crop_height ≤ height`, and every TRACK crop frame is 9:16 up to the
source's integer truncation: `crop_width = ⌊9 · crop_height / 16⌋` or
(when the natural box would be too wide and is re-derived from the width)
`crop_height = ⌊16 · crop_width / 9⌋`. -/
theorem claim_C4_crop_bounds (read_ok : ℕ → Bool) (center : ℕ → ℚ × ℚ)
    (mode : CroppingMode) (fps start_time end_time : ℚ) (w h : ℤ)
    (hw : 0 ≤ w) (hh : 0 ≤ h) :
    ∀ cf ∈ generate_trajectory read_ok center mode fps start_time end_time w h,
      cf.crop_width ≤ w ∧ cf.crop_height ≤ h ∧
      (cf.mode = CroppingMode.track →
        cf.crop_width = ⌊(9 * (cf.crop_height : ℚ)) / 16⌋ ∨
        cf.crop_height = ⌊(16 * (cf.crop_width : ℚ)) / 9⌋) := by
  intro cf hcf
  rw [generate_trajectory] at hcf
  rw [interpolate_crop_frames] at hcf
  split_ifs at hcf with hk
  · simp at hcf
  · rw [List.mem_map] at hcf
    obtain ⟨fi, hfi, rfl⟩ := hcf
    obtain ⟨k, hk2, hcwid, hchei, hmode2⟩ := interp_one_dims _ _ mode (fi : ℤ)
    rw [hcwid, hchei]
    have hkprop : k.crop_width ≤ w ∧ k.crop_height ≤ h ∧
        (k.crop_width = ⌊(9 * (k.crop_height : ℚ)) / 16⌋ ∨
          k.crop_height = ⌊(16 * (k.crop_width : ℚ)) / 9⌋ ∨
          (k.mode = CroppingMode.general ∧ mode = CroppingMode.general)) := by
      rcases hk2 with hk2 | hdef
      · rw [List.mem_map] at hk2
        obtain ⟨p, hp, hpk⟩ := hk2
        have hpe := collect_keyframes_mem _ _ _ p hp
        rw [← hpk, hpe]
        cases mode with
        | track =>
            obtain ⟨a, b, c, _⟩ :=
              track_mode_crop_spec (center p.2).1 (center p.2).2 w h hw hh
            exact ⟨a, b, by
              rcases c with c | c
              · exact Or.inl c
              · exact Or.inr (Or.inl c)⟩
        | general =>
            exact ⟨le_refl w, le_refl h, Or.inr (Or.inr ⟨rfl, rfl⟩)⟩
      · subst hdef
        refine ⟨hw, hh, Or.inl ?_⟩
        show (0 : ℤ) = ⌊(9 * ((0 : ℤ) : ℚ)) / 16⌋
        norm_num
    refine ⟨hkprop.1, hkprop.2.1, fun hmode3 => ?_⟩
    rcases hkprop.2.2 with hrel | hrel | hgen
    · exact Or.inl hrel
    · exact Or.inr hrel
    · exfalso
      rcases hmode2 with he | hmm
      · rw [he, hgen.1] at hmode3
        exact absurd hmode3 (by simp)
      · rw [hmm, hgen.2] at hmode3
        exact absurd hmode3 (by simp)

/-- C4 witness: the bounds theorem applied to the concrete single-frame
TRACK trajectory on the 1000 × 1000 source. -/
theorem claim_C4_crop_bounds_witness :
    (0 : ℤ) ≤ 1000 ∧ (0 : ℤ) ≤ 1000 ∧
    (⟨500, 500, 562, 1000, CroppingMode.track⟩ : CropFrame) ∈
      generate_trajectory (fun _ => true) (fun _ => (500, 500))
        CroppingMode.track 30 0 (1/30) 1000 1000 ∧
    ((⟨500, 500, 562, 1000, CroppingMode.track⟩ : CropFrame).crop_width ≤ 1000 ∧
      (⟨500, 500, 562, 1000, CroppingMode.track⟩ : CropFrame).crop_height ≤ 1000 ∧
      ((⟨500, 500, 562, 1000, CroppingMode.track⟩ : CropFrame).mode =
          CroppingMode.track →
        (⟨500, 500, 562, 1000, CroppingMode.track⟩ : CropFrame).crop_width =
          ⌊(9 * ((⟨500, 500, 562, 1000, CroppingMode.track⟩ : CropFrame).crop_height : ℚ)) / 16⌋ ∨
        (⟨500, 500, 562, 1000, CroppingMode.track⟩ : CropFrame).crop_height =
          ⌊(16 * ((⟨500, 500, 562, 1000, CroppingMode.track⟩ : CropFrame).crop_width : ℚ)) / 9⌋)) := by
  have hmem : (⟨500, 500, 562, 1000, CroppingMode.track⟩ : CropFrame) ∈
      generate_trajectory (fun _ => true) (fun _ => (500, 500))
        CroppingMode.track 30 0 (1/30) 1000 1000 := by
    rw [track_example_eval]
    simp
  exact ⟨by norm_num, by norm_num, hmem,
    claim_C4_crop_bounds (fun _ => true) (fun _ => (500, 500))
      CroppingMode.track 30 0 (1/30) 1000 1000 (by norm_num) (by norm_num)
      _ hmem⟩

/-- C10: the shape of keyframe interpolation.  For output frame index
`f` (within range, nonempty keyframes, strictly increasing keyframe
indices, one index per keyframe, all keyframes carrying the requested
strategy): (i) an index at or before the first keyframe receives the
first keyframe unchanged; (ii) an index equal to the `j`-th keyframe
index receives that keyframe unchanged; (iii) an index at or after the
last keyframe index receives the last keyframe unchanged; (iv) an index
strictly between the bracketing keyframes `j` and `j + 1` receives the
linear interpolation of the two centres by fractional position (stored
truncated to `int`, as the `CropFrame` fields are integers), with
`crop_width`, `crop_height` and the strategy carried unchanged from the
preceding keyframe. -/
theorem claim_C10_interpolation_shape (keyframes : List CropFrame)
    (indices : List ℤ) (total_frames : ℕ) (mode : CroppingMode)
    (hne : keyframes ≠ []) (hlen : indices.length = keyframes.length)
    (hsort : indices.Sorted (· < ·))
    (hmode : ∀ k ∈ keyframes, k.mode = mode) (f : ℕ) (hf : f < total_frames) :
    ((f : ℤ) ≤ indices.getD 0 0 →
      (interpolate_crop_frames keyframes indices total_frames mode).getD f default =
        keyframes.getD 0 default) ∧
    (∀ j, j < indices.length → (f : ℤ) = indices.getD j 0 →
      (interpolate_crop_frames keyframes indices total_frames mode).getD f default =
        keyframes.getD j default) ∧
    (indices.getD (indices.length - 1) 0 ≤ (f : ℤ) →
      (interpolate_crop_frames keyframes indices total_frames mode).getD f default =
        keyframes.getD (keyframes.length - 1) default) ∧
    (∀ j, j + 1 < indices.length →
      indices.getD j 0 < (f : ℤ) → (f : ℤ) < indices.getD (j + 1) 0 →
      (interpolate_crop_frames keyframes indices total_frames mode).getD f default =
        { center_x := pyInt (((keyframes.getD j default).center_x : ℚ) +
            (((f : ℤ) : ℚ) - (indices.getD j 0 : ℚ)) /
              ((indices.getD (j + 1) 0 : ℚ) - (indices.getD j 0 : ℚ)) *
            (((keyframes.getD (j + 1) default).center_x : ℚ) -
              ((keyframes.getD j default).center_x : ℚ)))
          center_y := pyInt (((keyframes.getD j default).center_y : ℚ) +
            (((f : ℤ) : ℚ) - (indices.getD j 0 : ℚ)) /
              ((indices.getD (j + 1) 0 : ℚ) - (indices.getD j 0 : ℚ)) *
            (((keyframes.getD (j + 1) default).center_y : ℚ) -
              ((keyframes.getD j default).center_y : ℚ)))
          crop_width := (keyframes.getD j default).crop_width
          crop_height := (keyframes.getD j default).crop_height
          mode := (keyframes.getD j default).mode }) := by
  have h0 : 0 < indices.length := by
    rw [hlen]
    exact List.length_pos.mpr hne
  have hg := interpolate_getD keyframes indices total_frames mode hne f hf
  refine ⟨?_, ?_, ?_, ?_⟩
  · intro hf0
    rw [hg]
    obtain ⟨k0, rest, hcons⟩ : ∃ k0 rest, indices = k0 :: rest := by
      rcases indices with _ | ⟨a, r⟩
      · simp at h0
      · exact ⟨a, r, rfl⟩
    have hk0 : indices.getD 0 0 = k0 := by
      rw [hcons]
      rfl
    have hb : find_bracket indices (f : ℤ) keyframes.length = (0, 0) := by
      rw [hcons]
      exact find_bracket_le_head k0 rest (f : ℤ) keyframes.length
        (by rw [hk0] at hf0; exact hf0)
    exact interp_one_of_bracket_eq _ _ _ _ 0 hb
  · intro j hj hfj
    rw [hg]
    rw [List.getD_eq_getElem _ _ hj] at hfj
    exact interp_one_of_bracket_eq _ _ _ _ j
      (find_bracket_eq indices hsort j hj _ _ hfj)
  · intro hlast
    rw [hg]
    have hj : indices.length - 1 < indices.length := by omega
    rw [List.getD_eq_getElem _ _ hj] at hlast
    rcases lt_or_eq_of_le hlast with hlt | heq
    · have hb := find_bracket_gt_last indices hsort
        (List.length_pos.mp h0) (f : ℤ) hlt keyframes.length
      have hb2 : find_bracket indices (f : ℤ) keyframes.length =
          (keyframes.length - 1, keyframes.length - 1) := by
        rw [hb, hlen]
      exact interp_one_of_bracket_eq _ _ _ _ _ hb2
    · have hb := find_bracket_eq indices hsort (indices.length - 1) hj
        keyframes.length (f : ℤ) heq.symm
      rw [interp_one_of_bracket_eq _ _ _ _ _ hb, hlen]
  · intro j hj1 hlo hhi
    rw [hg]
    have hjlt : j < indices.length := by omega
    rw [List.getD_eq_getElem _ _ hjlt] at hlo
    rw [List.getD_eq_getElem _ _ hj1] at hhi
    have hb := find_bracket_between indices hsort j hj1 (f : ℤ) hlo hhi
      keyframes.length
    have hne2 : indices.getD (j + 1) 0 ≠ indices.getD j 0 := by
      rw [List.getD_eq_getElem _ _ hj1, List.getD_eq_getElem _ _ hjlt]
      have := List.pairwise_iff_getElem.mp hsort j (j + 1) hjlt hj1 (by omega)
      omega
    rw [interp_one_of_bracket_lerp keyframes indices mode (f : ℤ) j hb hne2]
    have hjk : j < keyframes.length := by omega
    have hkm : (keyframes.getD j default).mode = mode := by
      rw [List.getD_eq_getElem _ _ hjk]
      exact hmode _ (List.getElem_mem hjk)
    rw [hkm]

/-- C10 witness: two keyframes with centres (0, 0) and (90, 45) at output
indices 0 and 3; the frame at index 1 interpolates to centre (30, 15)
with the box and strategy carried from the first keyframe. -/
theorem claim_C10_interpolation_shape_witness :
    ([(0 : ℤ), 3].Sorted (· < ·)) ∧ (1 : ℕ) < 6 ∧
    (interpolate_crop_frames
        [⟨0, 0, 100, 100, CroppingMode.track⟩,
          ⟨90, 45, 100, 100, CroppingMode.track⟩]
        [0, 3] 6 CroppingMode.track).getD 1 default =
      ⟨30, 15, 100, 100, CroppingMode.track⟩ := by
  refine ⟨by decide, by norm_num, ?_⟩
  have h := claim_C10_interpolation_shape
    [⟨0, 0, 100, 100, CroppingMode.track⟩,
      ⟨90, 45, 100, 100, CroppingMode.track⟩]
    [0, 3] 6 CroppingMode.track (by simp) rfl (by decide) (by decide) 1
    (by norm_num)
  have h4 := h.2.2.2 0 (by norm_num) (by decide) (by decide)
  rw [h4]
  norm_num [pyInt, List.getD_cons_zero, List.getD_cons_succ]

/-! ## Claims about the stabilizer -/

namespace HeavyTripodStabilizer

/-- C8: for every initialized stabilizer and every input whose
(detection-gated) target lies strictly within the deadzone of the current
position, `update` returns the current position unchanged and does not
move the stored position. -/
theorem claim_C8_deadzone_invariant (st : HeavyTripodStabilizer)
    (dx dy conf : ℝ) (hinit : st.initialized = true)
    (hdz : distTo (gated st.state dx dy conf) < st.config.deadzone) :
    (st.update dx dy conf).2 = (st.state.current_x, st.state.current_y) ∧
    (st.update dx dy conf).1.state.current_x = st.state.current_x ∧
    (st.update dx dy conf).1.state.current_y = st.state.current_y := by
  rw [update]
  simp [hinit, hdz]

/-- C8 witness: a freshly reset stabilizer fed its own position (distance
0, below the deadzone 25 of the service configuration) stays put. -/
theorem claim_C8_deadzone_invariant_witness :
    fresh_service_stab.initialized = true ∧
    distTo (gated fresh_service_stab.state 0 0 1) <
      fresh_service_stab.config.deadzone ∧
    (fresh_service_stab.update 0 0 1).2 =
      (fresh_service_stab.state.current_x, fresh_service_stab.state.current_y) := by
  have hd : distTo (gated fresh_service_stab.state 0 0 1) <
      fresh_service_stab.config.deadzone := by
    norm_num [fresh_service_stab, service_config, gated, distTo]
  exact ⟨rfl, hd, (claim_C8_deadzone_invariant _ 0 0 1 rfl hd).1⟩

/-- C9: one `update` tick on an initialized, unlocked stabilizer whose
stored velocity respects the `max_velocity` bound (an invariant: `reset`
zeroes the velocity and this theorem propagates the bound) leaves a
stored velocity of magnitude at most `max_velocity` and displaces the
current position by at most `max_velocity`. -/
theorem claim_C9_velocity_bound (st : HeavyTripodStabilizer)
    (dx dy conf : ℝ) (hinit : st.initialized = true)
    (hlock : st.state.locked = false) (hmax : 0 ≤ st.config.max_velocity)
    (hv : Real.sqrt (st.state.velocity_x ^ 2 + st.state.velocity_y ^ 2) ≤
      st.config.max_velocity) :
    Real.sqrt ((st.update dx dy conf).1.state.velocity_x ^ 2 +
        (st.update dx dy conf).1.state.velocity_y ^ 2) ≤
      st.config.max_velocity ∧
    Real.sqrt (((st.update dx dy conf).1.state.current_x - st.state.current_x) ^ 2 +
        ((st.update dx dy conf).1.state.current_y - st.state.current_y) ^ 2) ≤
      st.config.max_velocity := by
  have hzero : Real.sqrt ((0:ℝ) ^ 2 + (0:ℝ) ^ 2) = 0 := by norm_num
  rcases lt_or_le (distTo (gated st.state dx dy conf)) st.config.deadzone with hdz | hdz
  · rw [update_eq_of_deadzone st dx dy conf hinit hdz]
    constructor
    · simpa using hv
    · simpa using hmax
  · have hdz' : ¬ distTo (gated st.state dx dy conf) < st.config.deadzone :=
      not_lt.mpr hdz
    by_cases hlk : st.config.lock_threshold < distTo (gated st.state dx dy conf)
    · rw [update_eq_of_unlock_move st dx dy conf hinit hdz' hlk]
      constructor
      · rcases step_move_velocity st.config
          (unlocked_from (gated st.state dx dy conf)) with ⟨h1, h2⟩ | ⟨h1, h2⟩
        · simp only [update_history_velocity_x, update_history_velocity_y,
            h1, h2, step_velocity_unlocked_from]
          exact step_velocity_norm_le st.config (gated st.state dx dy conf) hmax
        · simp only [update_history_velocity_x, update_history_velocity_y, h1, h2]
          simpa using hmax
      · simp only [update_history_current_x, update_history_current_y,
          step_move_current_x, step_move_current_y, step_velocity_unlocked_from,
          unlocked_from_current_x, unlocked_from_current_y,
          gated_current_x, gated_current_y, add_sub_cancel_left]
        exact step_velocity_norm_le st.config (gated st.state dx dy conf) hmax
    · have hl1 : (gated st.state dx dy conf).locked = false := by simp [hlock]
      rw [update_eq_of_stay_move st dx dy conf hinit hdz' hlk hl1]
      constructor
      · rcases step_move_velocity st.config (gated st.state dx dy conf) with
          ⟨h1, h2⟩ | ⟨h1, h2⟩
        · simp only [update_history_velocity_x, update_history_velocity_y, h1, h2]
          exact step_velocity_norm_le st.config (gated st.state dx dy conf) hmax
        · simp only [update_history_velocity_x, update_history_velocity_y, h1, h2]
          simpa using hmax
      · simp only [update_history_current_x, update_history_current_y,
          step_move_current_x, step_move_current_y,
          gated_current_x, gated_current_y, add_sub_cancel_left]
        exact step_velocity_norm_le st.config (gated st.state dx dy conf) hmax

/-- C9 witness: the bound instantiated on a concrete unlocked state with
zero stored velocity under the service configuration. -/
theorem claim_C9_velocity_bound_witness :
    unlocked_rest_stab.initialized = true ∧
    unlocked_rest_stab.state.locked = false ∧
    (0:ℝ) ≤ unlocked_rest_stab.config.max_velocity ∧
    Real.sqrt (unlocked_rest_stab.state.velocity_x ^ 2 +
        unlocked_rest_stab.state.velocity_y ^ 2) ≤
      unlocked_rest_stab.config.max_velocity ∧
    Real.sqrt (((unlocked_rest_stab.update 100 0 1).1.state.current_x -
          unlocked_rest_stab.state.current_x) ^ 2 +
        ((unlocked_rest_stab.update 100 0 1).1.state.current_y -
          unlocked_rest_stab.state.current_y) ^ 2) ≤
      unlocked_rest_stab.config.max_velocity := by
  have hmax : (0:ℝ) ≤ unlocked_rest_stab.config.max_velocity := by
    norm_num [unlocked_rest_stab, service_config]
  have hv : Real.sqrt (unlocked_rest_stab.state.velocity_x ^ 2 +
      unlocked_rest_stab.state.velocity_y ^ 2) ≤
      unlocked_rest_stab.config.max_velocity := by
    norm_num [unlocked_rest_stab, service_config]
  exact ⟨rfl, rfl, hmax, hv,
    (claim_C9_velocity_bound _ 100 0 1 rfl rfl hmax hv).2⟩

/-- C7, counterexample: an initialized, unlocked stabilizer at the origin
with residual velocity 5, fed a confident detection 10 px away (closer
than the deadzone 25), ends the tick with the distance to its target
below the deadzone — yet it does **not** re-lock and its velocity is not
zeroed, contradicting the claim that an unlocked state re-locks (with
velocity set to zero) as soon as the distance to the target falls below
the deadzone. -/
theorem claim_C7_counterexample :
    distTo (unlocked_residual_stab.update 10 0 1).1.state <
      (unlocked_residual_stab.update 10 0 1).1.config.deadzone ∧
    (unlocked_residual_stab.update 10 0 1).1.state.locked = false ∧
    (unlocked_residual_stab.update 10 0 1).1.state.velocity_x = 5 ∧
    (unlocked_residual_stab.update 10 0 1).1.state.current_x = 0 := by
  have h100 : Real.sqrt (100:ℝ) = 10 := by
    rw [show (100:ℝ) = 10 ^ 2 by norm_num,
      Real.sqrt_sq (by norm_num : (0:ℝ) ≤ 10)]
  have hgat : gated unlocked_residual_stab.state 10 0 1 =
      ⟨0, 0, 10, 0, 5, 0, false, 0, []⟩ := by
    norm_num [unlocked_residual_stab, gated]
  have hdz : distTo (gated unlocked_residual_stab.state 10 0 1) <
      unlocked_residual_stab.config.deadzone := by
    rw [hgat]
    norm_num [unlocked_residual_stab, service_config, distTo, h100]
  rw [update_eq_of_deadzone unlocked_residual_stab 10 0 1 rfl hdz, hgat]
  refine ⟨?_, rfl, rfl, rfl⟩
  norm_num [unlocked_residual_stab, service_config, distTo, update_history, h100]

/-- C7 (amended): two-sided lock hysteresis as the code implements it.
For every initialized stabilizer, with the target already gated by the
detection confidence: (1) a locked state whose distance to the target is
at most `lock_threshold` keeps its position and stays locked; (2) a
locked state whose distance exceeds `lock_threshold` (and is at least the
deadzone) unlocks and takes a movement step, re-locking — with zeroed
velocity — exactly if the post-move distance falls under the deadzone;
(3) an unlocked state at distance at least the deadzone moves the same
way; (4) an unlocked state whose distance is already below the deadzone
returns the position unchanged but does **not** re-lock and keeps its
stored velocity — the re-lock test only runs after a movement step. -/
theorem claim_C7_lock_hysteresis (st : HeavyTripodStabilizer)
    (dx dy conf : ℝ) (hinit : st.initialized = true) :
    ((gated st.state dx dy conf).locked = true →
      distTo (gated st.state dx dy conf) ≤ st.config.lock_threshold →
      (st.update dx dy conf).1.state.current_x = st.state.current_x ∧
      (st.update dx dy conf).1.state.current_y = st.state.current_y ∧
      (st.update dx dy conf).1.state.locked = true) ∧
    ((gated st.state dx dy conf).locked = true →
      st.config.lock_threshold < distTo (gated st.state dx dy conf) →
      st.config.deadzone ≤ distTo (gated st.state dx dy conf) →
      unlocked_step_behavior st dx dy conf) ∧
    ((gated st.state dx dy conf).locked = false →
      st.config.deadzone ≤ distTo (gated st.state dx dy conf) →
      unlocked_step_behavior st dx dy conf) ∧
    ((gated st.state dx dy conf).locked = false →
      distTo (gated st.state dx dy conf) < st.config.deadzone →
      (st.update dx dy conf).1.state.current_x = st.state.current_x ∧
      (st.update dx dy conf).1.state.current_y = st.state.current_y ∧
      (st.update dx dy conf).1.state.locked = false ∧
      (st.update dx dy conf).1.state.velocity_x = st.state.velocity_x ∧
      (st.update dx dy conf).1.state.velocity_y = st.state.velocity_y) := by
  refine ⟨?_, ?_, ?_, ?_⟩
  · intro hl hd
    by_cases hdz : distTo (gated st.state dx dy conf) < st.config.deadzone
    · rw [update_eq_of_deadzone st dx dy conf hinit hdz]
      exact ⟨by simp, by simp, by simpa using hl⟩
    · rw [update_eq_of_locked st dx dy conf hinit hdz (not_lt.mpr hd) hl]
      exact ⟨by simp, by simp, by simpa using hl⟩
  · intro hl hlk hdz
    rw [unlocked_step_behavior,
      update_eq_of_unlock_move st dx dy conf hinit (not_lt.mpr hdz) hlk]
    have hli := step_move_locked_iff st.config
      (unlocked_from (gated st.state dx dy conf)) rfl
    refine ⟨?_, ?_, ?_, ?_⟩
    · simp [step_move_current_x]
    · simp [step_move_current_y]
    · simpa using hli.1
    · intro hlt
      have h0 := hli.2 (by simpa using hlt)
      exact ⟨by simpa using h0.1, by simpa using h0.2⟩
  · intro hl hdz
    rw [unlocked_step_behavior]
    by_cases hlk : st.config.lock_threshold < distTo (gated st.state dx dy conf)
    · rw [update_eq_of_unlock_move st dx dy conf hinit (not_lt.mpr hdz) hlk]
      have hli := step_move_locked_iff st.config
        (unlocked_from (gated st.state dx dy conf)) rfl
      refine ⟨?_, ?_, ?_, ?_⟩
      · simp [step_move_current_x]
      · simp [step_move_current_y]
      · simpa using hli.1
      · intro hlt
        have h0 := hli.2 (by simpa using hlt)
        exact ⟨by simpa using h0.1, by simpa using h0.2⟩
    · rw [update_eq_of_stay_move st dx dy conf hinit (not_lt.mpr hdz) hlk hl]
      have hli := step_move_locked_iff st.config (gated st.state dx dy conf) hl
      refine ⟨?_, ?_, ?_, ?_⟩
      · simp [step_move_current_x]
      · simp [step_move_current_y]
      · simpa using hli.1
      · intro hlt
        have h0 := hli.2 (by simpa using hlt)
        exact ⟨by simpa using h0.1, by simpa using h0.2⟩
  · intro hl hdz
    rw [update_eq_of_deadzone st dx dy conf hinit hdz]
    exact ⟨by simp, by simp, by simpa using hl, by simp, by simp⟩

/-- C7 witness: the hysteresis theorem applied to a freshly reset
stabilizer under the service configuration; its locked branch keeps the
position and the lock. -/
theorem claim_C7_lock_hysteresis_witness :
    fresh_service_stab.initialized = true ∧
    (fresh_service_stab.update 0 0 1).1.state.current_x =
      fresh_service_stab.state.current_x ∧
    (fresh_service_stab.update 0 0 1).1.state.current_y =
      fresh_service_stab.state.current_y ∧
    (fresh_service_stab.update 0 0 1).1.state.locked = true :=
  ⟨rfl, (claim_C7_lock_hysteresis _ 0 0 1 rfl).1
    (by norm_num [fresh_service_stab, gated])
    (by norm_num [fresh_service_stab, service_config, gated, distTo])⟩

end HeavyTripodStabilizer

end VidApp
